import Mathlib

/-!
# Verification of the image-editor backend core

Shallow embedding, in Lean 4, of the parts of the image-editor backend that
the specification's testable claims are about:

* the operation model (`src/operations/Operation.ts`): the four transform
  variants and their `validate` predicates;
* the IEv1 binary protocol (`src/protocol/IEv1.ts`): CRC-32, payload
  encoding/decoding, frame encoding/decoding;
* the revision pipeline (`src/services/RevisionService.ts`,
  `src/database/PostgresClient.ts`, `src/storage/CloudStorage.ts`):
  `applyOp` and `undo` over a world state holding the metadata tables, the
  object-store buckets and the thumbnail cache.

Buffers are lists of byte values (`List Nat`, each element `< 256`); machine
integers are `Nat` with explicit bounds where JavaScript's semantics demand
them.  Node's `Buffer.writeUInt8`/`writeUInt32LE` throw `ERR_OUT_OF_RANGE`
on out-of-range values, so the encoders return `Except`.

The embedding models the service in its cloud configuration
(`GCP_PROJECT_ID` set, `SKIP_DB_CHECK` unset): the stateless degraded mode
and the local-filesystem mode are out of the specification's scope.
-/

/-! ## CRC-32 (`IEv1Protocol.calculateCRC32`) -/

/-- One shift step of the CRC-32 loop:
`crc = (crc >>> 1) ^ (0xEDB88320 & -(crc & 1))` in the source.  The JS
expression `0xEDB88320 & -(crc & 1)` is `0xEDB88320` when the low bit of
`crc` is set and `0` otherwise. -/
def crcStep (crc : Nat) : Nat :=
  (crc >>> 1) ^^^ (if crc % 2 = 1 then 0xEDB88320 else 0)

/-- Processing of one input byte: xor the byte into the register, then run
eight shift steps (the inner `for (let j = 0; j < 8; j++)` loop). -/
def crcByte (crc b : Nat) : Nat :=
  crcStep^[8] (crc ^^^ b)

/-- `IEv1Protocol.calculateCRC32`: init `0xFFFFFFFF`, process every byte,
final xor with `0xFFFFFFFF`. -/
def crc32 (data : List Nat) : Nat :=
  (data.foldl crcByte 0xFFFFFFFF) ^^^ 0xFFFFFFFF

/-! ## Operation model (`src/operations/Operation.ts`) -/

/-- The tagged operation variants.  `RotateOp`, `FlipOp`, `ResizeOp`,
`CompressOp` each hold exactly the parameters of the source classes;
`ResizeOp`'s optional dimensions (`width?: number`) are `Option Nat`,
`none` standing for `undefined`. -/
inductive Operation where
  | rotate (degrees : Nat)
  | flip (horizontal vertical : Bool)
  | resize (width height : Option Nat)
  | compress (quality : Nat)
deriving DecidableEq, Repr

/-- The `OpType` enum value of an operation
(`ROTATE = 1, FLIP = 2, RESIZE = 3, COMPRESS = 4`). -/
def Operation.typeTag : Operation → Nat
  | .rotate _ => 1
  | .flip _ _ => 2
  | .resize _ _ => 3
  | .compress _ => 4

/-- JavaScript truthiness of an optional number as used in
`ResizeOp.validate` (`!width`, `width && ...`): `undefined` and `0` are
falsy. -/
def truthy : Option Nat → Bool
  | none => false
  | some n => n != 0

/-- The `validate()` methods of the four operation classes.
* `RotateOp`: `[90, 180, 270].includes(degrees)`;
* `FlipOp`: `typeof horizontal === 'boolean' && typeof vertical === 'boolean'`,
  always true in the typed embedding;
* `ResizeOp`: `if (!width && !height) return false;` then range checks
  guarded by truthiness of each dimension;
* `CompressOp`: `quality >= 10 && quality <= 100`. -/
def Operation.validate : Operation → Bool
  | .rotate degrees => decide (degrees = 90 ∨ degrees = 180 ∨ degrees = 270)
  | .flip _ _ => true
  | .resize width height =>
      if ¬ truthy width ∧ ¬ truthy height then false
      else if truthy width ∧ (width.getD 0 < 200 ∨ width.getD 0 > 4000) then false
      else if truthy height ∧ (height.getD 0 < 200 ∨ height.getD 0 > 4000) then false
      else true
  | .compress quality => decide (10 ≤ quality ∧ quality ≤ 100)

/-! ## Little-endian byte utilities (`Buffer` reads and writes) -/

/-- `Buffer.writeUInt16LE`: the two little-endian bytes of a 16-bit value. -/
def u16le (n : Nat) : List Nat :=
  [n % 256, n / 256 % 256]

/-- `Buffer.writeUInt32LE`: the four little-endian bytes of a 32-bit value. -/
def u32le (n : Nat) : List Nat :=
  [n % 256, n / 256 % 256, n / 65536 % 256, n / 16777216 % 256]

/-- `Buffer.readUInt16LE(off)`. -/
def readU16 (data : List Nat) (off : Nat) : Nat :=
  data.getD off 0 + 256 * data.getD (off + 1) 0

/-- `Buffer.readUInt32LE(off)`. -/
def readU32 (data : List Nat) (off : Nat) : Nat :=
  data.getD off 0 + 256 * data.getD (off + 1) 0 +
    65536 * data.getD (off + 2) 0 + 16777216 * data.getD (off + 3) 0

/-! ## IEv1 protocol (`src/protocol/IEv1.ts`) -/

/-- `IEv1Protocol.encodePayload`.  Node's `Buffer.writeUInt8` throws
`ERR_OUT_OF_RANGE` when the value does not fit in one byte, and
`writeUInt32LE` when it does not fit in four, so the encoder is fallible. -/
def encodePayload : Operation → Except String (List Nat)
  | .rotate degrees =>
      if degrees ≤ 255 then .ok [degrees]
      else .error "writeUInt8 out of range"
  | .flip horizontal vertical =>
      .ok [(if horizontal then 1 else 0) ||| (if vertical then 2 else 0)]
  | .resize width height =>
      if width.getD 0 ≤ 4294967295 ∧ height.getD 0 ≤ 4294967295 then
        .ok (u32le (width.getD 0) ++ u32le (height.getD 0))
      else .error "writeUInt32LE out of range"
  | .compress quality =>
      if quality ≤ 255 then .ok [quality]
      else .error "writeUInt8 out of range"

/-- `IEv1Protocol.encode`: 12-byte header (version `1`, op type, payload
length, CRC-32 of the payload, all little-endian) followed by the payload. -/
def encode (op : Operation) : Except String (List Nat) :=
  match encodePayload op with
  | .error e => .error e
  | .ok payload =>
      .ok (u16le 1 ++ u16le op.typeTag ++ u32le payload.length ++
            u32le (crc32 payload) ++ payload)

/-- `IEv1Protocol.decodePayload`.  The source's `switch (opType)` with a
throwing `default` branch; `readUInt32LE(..) || undefined` maps a zero
dimension to `undefined`. -/
def decodePayload (opType : Nat) (payload : List Nat) : Except String Operation :=
  if opType = 1 then
    if payload.length < 1 then .error "Invalid rotate payload"
    else .ok (.rotate (payload.getD 0 0))
  else if opType = 2 then
    if payload.length < 1 then .error "Invalid flip payload"
    else .ok (.flip (payload.getD 0 0 &&& 1 != 0) (payload.getD 0 0 &&& 2 != 0))
  else if opType = 3 then
    if payload.length < 8 then .error "Invalid resize payload"
    else .ok (.resize
      (if readU32 payload 0 = 0 then none else some (readU32 payload 0))
      (if readU32 payload 4 = 0 then none else some (readU32 payload 4)))
  else if opType = 4 then
    if payload.length < 1 then .error "Invalid compress payload"
    else .ok (.compress (payload.getD 0 0))
  else .error "Unknown operation type"

/-- `IEv1Protocol.decode`: length, version, payload-fit and checksum
checks, then `decodePayload` on `data.subarray(12, 12 + payloadLen)`. -/
def decode (data : List Nat) : Except String Operation :=
  if data.length < 12 then .error "Invalid IEv1 data: too short"
  else if readU16 data 0 ≠ 1 then .error "Unsupported protocol version"
  else if data.length < 12 + readU32 data 4 then .error "Invalid IEv1 data: payload truncated"
  else if crc32 ((data.drop 12).take (readU32 data 4)) ≠ readU32 data 8 then
    .error "IEv1 checksum mismatch"
  else decodePayload (readU16 data 2) ((data.drop 12).take (readU32 data 4))

/-- Flip bit `i` (little-endian within each byte) of a byte buffer: replace
byte `i / 8` by its xor with `1 <<< (i % 8)`. -/
def flipBit (data : List Nat) (i : Nat) : List Nat :=
  data.set (i / 8) (data.getD (i / 8) 0 ^^^ (1 <<< (i % 8)))

/-! ## Specification-side definitions

These definitions follow the specification's words, not the source; they
exist to be compared with the source-derived definitions above. -/

/-- One bit-level step of the reflected CRC-32 of the specification:
xor the input bit into the low end of the register, then shift right,
xoring with the reflected polynomial `0xEDB88320` when a one falls out. -/
def crcBitStep (crc bit : Nat) : Nat :=
  (crc ^^^ bit % 2) >>> 1 ^^^ (if (crc ^^^ bit % 2) % 2 = 1 then 0xEDB88320 else 0)

/-- The `n` low bits of a byte, least significant first (reflected input). -/
def bitsLE : Nat → Nat → List Nat
  | 0, _ => []
  | n + 1, b => b % 2 :: bitsLE n (b / 2)

/-- The standard CRC-32 as the specification defines it: polynomial
`0xEDB88320`, init `0xFFFFFFFF`, final xor `0xFFFFFFFF`, input processed
bit by bit, least significant bit of each byte first. -/
def crc32Spec (data : List Nat) : Nat :=
  (data.foldl (fun c b => (bitsLE 8 b).foldl crcBitStep c) 0xFFFFFFFF) ^^^ 0xFFFFFFFF

/-- The §3 parameter constraints exactly as the claims state them, with
"present" read as "supplied" (`Option.isSome`): rotate degrees in
`{90, 180, 270}`; flip always well-formed; resize with at least one
dimension present and each present dimension in `[200, 4000]`; compress
quality in `[10, 100]`. -/
def sectionThreeValid : Operation → Bool
  | .rotate d => decide (d = 90 ∨ d = 180 ∨ d = 270)
  | .flip _ _ => true
  | .resize w h => decide ((w.isSome ∨ h.isSome) ∧
      (w = none ∨ (200 ≤ w.getD 0 ∧ w.getD 0 ≤ 4000)) ∧
      (h = none ∨ (200 ≤ h.getD 0 ∧ h.getD 0 ≤ 4000)))
  | .compress q => decide (10 ≤ q ∧ q ≤ 100)

/-- The §3 constraints with "present" read as JavaScript truthiness
(a dimension equal to `0` counts as absent, exactly as `ResizeOp.validate`
treats it). -/
def sectionThreeValidTruthy : Operation → Bool
  | .rotate d => decide (d = 90 ∨ d = 180 ∨ d = 270)
  | .flip _ _ => true
  | .resize w h => decide ((truthy w ∨ truthy h) ∧
      (truthy w = false ∨ (200 ≤ w.getD 0 ∧ w.getD 0 ≤ 4000)) ∧
      (truthy h = false ∨ (200 ≤ h.getD 0 ∧ h.getD 0 ≤ 4000)))
  | .compress q => decide (10 ≤ q ∧ q ≤ 100)

/-! ## Metadata, storage and cache model
(`PostgresClient.ts`, `CloudStorage.ts`, `RevisionService.ts`) -/

/-- A row of the `images` table (`ImageRecord` in `PostgresClient.ts`).
Identifiers are numeric stand-ins for UUIDs; a real UUID is never the
falsy value `0`. -/
structure ImageRecord where
  id : Nat
  user_id : Nat
  original_path : String
  size_bytes : Nat
  mime_type : String
  created_at : Nat
  updated_at : Nat
deriving DecidableEq, Repr

/-- A row of the `revisions` table (`RevisionRecord` in
`PostgresClient.ts`).  `op_params` (a JSONB column holding
`operation.params`) is modelled by storing the operation value itself. -/
structure RevisionRecord where
  id : Nat
  image_id : Nat
  parent_id : Option Nat
  op_type : Nat
  op_params : Operation
  storage_path : String
  created_at : Nat
deriving DecidableEq, Repr

/-- An object in the results bucket together with the content type that
`CloudStorage.uploadResult` records on it. -/
structure BlobRecord where
  bytes : List Nat
  contentType : String
deriving DecidableEq, Repr

/-- The state the revision pipeline acts on: the two metadata tables, the
`raw` and `results` buckets (path-keyed association lists), the thumbnail
cache, and a flag for whether the cache backend is reachable. -/
structure World where
  images : List ImageRecord
  revisions : List RevisionRecord
  rawBlobs : List (String × List Nat)
  resultBlobs : List (String × BlobRecord)
  thumbCache : List (Nat × List Nat)
  cacheUp : Bool
deriving DecidableEq, Repr

/-- `PostgresClient.getImage`: `SELECT * FROM images WHERE id = $1`. -/
def getImage (w : World) (imageId : Nat) : Option ImageRecord :=
  w.images.find? (fun img => img.id == imageId)

/-- `PostgresClient.getRevision`: `SELECT * FROM revisions WHERE id = $1`. -/
def getRevision (revs : List RevisionRecord) (revisionId : Nat) : Option RevisionRecord :=
  revs.find? (fun r => r.id == revisionId)

/-- `PostgresClient.getLatestRevision`:
`SELECT * FROM revisions WHERE image_id = $1 ORDER BY created_at DESC LIMIT 1`,
modelled as the row of the image with the greatest `created_at` (the first
such row when timestamps tie, ties being unspecified in SQL). -/
def getLatestRevision (revs : List RevisionRecord) (imageId : Nat) : Option RevisionRecord :=
  (revs.filter (fun r => r.image_id == imageId)).foldl
    (fun best r =>
      match best with
      | none => some r
      | some b => if r.created_at > b.created_at then some r else some b)
    none

/-- `CloudStorage.getExtension`. -/
def getExtension (mimeType : String) : String :=
  if mimeType = "image/jpeg" then "jpg"
  else if mimeType = "image/png" then "png"
  else if mimeType = "image/webp" then "webp"
  else "bin"

/-- The deterministic results-bucket path `CloudStorage.uploadResult`
writes to: `` `${imageId}_${revisionId}.${ext}` ``. -/
def uploadResultPath (imageId revisionId : Nat) (mimeType : String) : String :=
  let ext := getExtension mimeType
  s!"{imageId}_{revisionId}.{ext}"

/-- `RedisClient.invalidateThumbnail` (`src/backend/src/cache/RedisClient.ts`):
`` await this.client.del(`thumb:${imageId}`) `` with no try/catch.  When
the Redis backend is unreachable the command rejects — after the client's
ten reconnect retries, with `'Redis connection failed after 10 retries'` —
and the error propagates to the caller.  `World.cacheUp` models whether
the backend is reachable. -/
def invalidateThumbnail (w : World) (imageId : Nat) : Except String World :=
  if w.cacheUp then
    .ok { w with thumbCache := w.thumbCache.filter (fun e => e.1 ≠ imageId) }
  else .error "Redis connection failed after 10 retries"

/-- `RevisionService.applyOp` in cloud mode, inside
`PostgresClient.withImageLock` (errors roll the transaction back, which
the purely functional model renders by discarding the updated world):
validate, fetch the image row, read the latest revision, download the
source from `results`/`parent.storage_path` or `raw`/`image.original_path`,
run the codec pipeline, upload the result with the image row's mime type,
insert the revision row (`parent?.id || null` as parent), and invalidate
the thumbnail cache.  The `await cache.invalidateThumbnail` sits inside
the `withImageLock` callback with no try/catch, so a cache failure
propagates, the transaction rolls back, and `applyOp` rethrows (in the
real system the already-uploaded result blob is left orphaned for the
bucket lifecycle to sweep; a failed run returns no world here, so the
orphan is not observable through the return value).  The Sharp pipeline is
a third-party codec, passed in as `codec`; `revisionId` stands for the
freshly minted UUID and `now` for the insert's `NOW()` timestamp. -/
def applyOp (codec : Operation → List Nat → List Nat) (w : World)
    (imageId revisionId now : Nat) (op : Operation) :
    Except String (World × RevisionRecord) :=
  if op.validate = false then .error "Invalid operation parameters"
  else
    match getImage w imageId with
    | none => .error "Image not found"
    | some image =>
      let parent := getLatestRevision w.revisions imageId
      let sourceOpt : Option (List Nat) :=
        match parent with
        | some p => (w.resultBlobs.lookup p.storage_path).map (·.bytes)
        | none => w.rawBlobs.lookup image.original_path
      match sourceOpt with
      | none => .error "StorageError: source object not found"
      | some sourceBuffer =>
        let resultBuffer := codec op sourceBuffer
        let resultPath := uploadResultPath imageId revisionId image.mime_type
        let parentId : Option Nat :=
          match parent with
          | some p => if p.id = 0 then none else some p.id
          | none => none
        let revision : RevisionRecord :=
          ⟨revisionId, imageId, parentId, op.typeTag, op, resultPath, now⟩
        let w1 : World :=
          { w with
            resultBlobs := (resultPath, ⟨resultBuffer, image.mime_type⟩) :: w.resultBlobs,
            revisions := w.revisions ++ [revision] }
        match invalidateThumbnail w1 imageId with
        | .error e => .error e
        | .ok w2 => .ok (w2, revision)

/-- `RevisionService.undo`: read the latest revision, refuse when there is
none or when it has no parent, load the parent row, invalidate the
thumbnail cache (an uncaught `await`, so a cache failure propagates), and
return the parent.  No table is written. -/
def undo (w : World) (imageId : Nat) : Except String (World × RevisionRecord) :=
  match getLatestRevision w.revisions imageId with
  | none => .error "No revisions to undo"
  | some current =>
    match current.parent_id with
    | none => .error "Cannot undo original image"
    | some pid =>
      match getRevision w.revisions pid with
      | none => .error "Parent revision not found"
      | some parent =>
        match invalidateThumbnail w imageId with
        | .error e => .error e
        | .ok w2 => .ok (w2, parent)

/-- Whether a decode/apply result is a success. -/
def isOk {α : Type} : Except String α → Bool
  | .ok _ => true
  | .error _ => false

instance {ε α : Type} [DecidableEq ε] [DecidableEq α] : DecidableEq (Except ε α) := fun a b =>
  match a, b with
  | .error e, .error f =>
    if h : e = f then .isTrue (by rw [h]) else .isFalse (fun hh => by cases hh; exact h rfl)
  | .ok x, .ok y =>
    if h : x = y then .isTrue (by rw [h]) else .isFalse (fun hh => by cases hh; exact h rfl)
  | .error _, .ok _ => .isFalse (fun hh => Except.noConfusion hh)
  | .ok _, .error _ => .isFalse (fun hh => Except.noConfusion hh)

/-- The `parent_id` recorded on the revision returned by a pipeline run
(`none` in the outer `Option` when the run failed). -/
def resultParentId (r : Except String (World × RevisionRecord)) : Option (Option Nat) :=
  r.toOption.map (fun pr => pr.2.parent_id)

/-- The results-bucket object found at the returned revision's
`storage_path` after a pipeline run. -/
def resultStoredBlob (r : Except String (World × RevisionRecord)) : Option (Option BlobRecord) :=
  r.toOption.map (fun pr => pr.1.resultBlobs.lookup pr.2.storage_path)

/-! ## Concrete fixtures

Small concrete worlds used to witness the theorems below and to exhibit
counterexamples.  The codec argument of `applyOp` is a third-party image
library (Sharp); the identity function serves as a stand-in pipeline. -/

/-- A stand-in codec pipeline for witnesses: returns the source bytes. -/
def idCodec : Operation → List Nat → List Nat := fun _ b => b

/-- A PNG image row. -/
def imgPng : ImageRecord := ⟨9, 1, "1/9.png", 1000, "image/png", 0, 0⟩

/-- A revision of `imgPng` derived directly from the original. -/
def revOrig : RevisionRecord := ⟨2, 9, none, 1, .rotate 90, "9_2.png", 3⟩

/-- A world where `imgPng` has one revision whose result blob is stored. -/
def worldWithParent : World :=
  ⟨[imgPng], [revOrig], [("1/9.png", [7, 7])],
   [("9_2.png", ⟨[1, 2, 3], "image/png"⟩)], [], true⟩

/-- A world where `imgPng` has no revisions yet. -/
def worldNoRev : World :=
  ⟨[imgPng], [], [("1/9.png", [7, 7])], [], [], true⟩

/-- `worldNoRev` with an unreachable cache backend and a stale thumbnail. -/
def worldCacheDown : World :=
  ⟨[imgPng], [], [("1/9.png", [7, 7])], [], [(9, [0])], false⟩

/-- A JPEG image row. -/
def imgJpg : ImageRecord := ⟨7, 1, "1/7.jpg", 500, "image/jpeg", 0, 0⟩

/-- First revision of `imgJpg` (rotate, derived from the original). -/
def rev1 : RevisionRecord := ⟨1, 7, none, 1, .rotate 90, "7_1.jpg", 1⟩

/-- Second revision of `imgJpg` (flip, child of `rev1`). -/
def rev2 : RevisionRecord := ⟨2, 7, some 1, 2, .flip true false, "7_2.jpg", 2⟩

/-- A world where `imgJpg` carries the chain `rev1 → rev2`. -/
def worldChain : World :=
  ⟨[imgJpg], [rev1, rev2], [("1/7.jpg", [4])],
   [("7_1.jpg", ⟨[5], "image/jpeg"⟩), ("7_2.jpg", ⟨[6], "image/jpeg"⟩)], [], true⟩

/-! ## Helper lemmas: xor arithmetic -/

theorem xor_cancel_right (a b : Nat) : (a ^^^ b) ^^^ b = a := by
  rw [Nat.xor_assoc, Nat.xor_self, Nat.xor_zero]

theorem xor_left_cancel {a b c : Nat} (h : a ^^^ b = a ^^^ c) : b = c := by
  have hb : b = a ^^^ (a ^^^ b) := by
    rw [← Nat.xor_assoc, Nat.xor_self, Nat.zero_xor]
  rw [hb, h, ← Nat.xor_assoc, Nat.xor_self, Nat.zero_xor]

theorem xor_right_cancel {a b c : Nat} (h : a ^^^ c = b ^^^ c) : a = b := by
  have := congrArg (· ^^^ c) h
  simpa [xor_cancel_right] using this

theorem xor_ne_self {a t : Nat} (ht : t ≠ 0) : a ^^^ t ≠ a := by
  intro h
  apply ht
  have : a ^^^ t = a ^^^ 0 := by rw [Nat.xor_zero]; exact h
  exact xor_left_cancel this

/-- Reading back the four little-endian bytes of a 32-bit value. -/
theorem u32_readback {c : Nat} (h : c < 4294967296) :
    c % 256 + 256 * (c / 256 % 256) + 65536 * (c / 65536 % 256) +
      16777216 * (c / 16777216 % 256) = c := by
  omega

/-! ## Helper lemmas: CRC-32 register bounds and injectivity -/

theorem crcStep_lt {c : Nat} (h : c < 4294967296) : crcStep c < 4294967296 := by
  unfold crcStep
  have h1 : c >>> 1 < 4294967296 := by
    rw [Nat.shiftRight_one]; omega
  split
  · exact Nat.xor_lt_two_pow (n := 32) h1 (by norm_num)
  · simpa using h1

theorem crcStep_iter_lt (n : Nat) {c : Nat} (h : c < 4294967296) :
    crcStep^[n] c < 4294967296 := by
  induction n generalizing c with
  | zero => simpa using h
  | succ n ih =>
    rw [Function.iterate_succ_apply]
    exact ih (crcStep_lt h)

/-- The inverse of one CRC shift step on 32-bit registers: the top bit of
the output reveals which branch was taken. -/
def crcStepInv (c : Nat) : Nat :=
  2 * (c ^^^ ((c >>> 31) * 0xEDB88320)) + c >>> 31

theorem crcStepInv_crcStep {c : Nat} (h : c < 4294967296) :
    crcStepInv (crcStep c) = c := by
  rcases Nat.mod_two_eq_zero_or_one c with h2 | h2
  · have hstep : crcStep c = c / 2 := by
      unfold crcStep
      rw [if_neg (by omega), Nat.xor_zero, Nat.shiftRight_one]
    have h31 : (c / 2) >>> 31 = 0 := by
      rw [Nat.shiftRight_eq_div_pow]; omega
    unfold crcStepInv
    rw [hstep, h31, Nat.zero_mul, Nat.xor_zero]
    omega
  · have hstep : crcStep c = (c / 2) ^^^ 0xEDB88320 := by
      unfold crcStep
      rw [if_pos h2, Nat.shiftRight_one]
    have hc2 : c / 2 < 2 ^ 31 := by omega
    have hlt : (c / 2) ^^^ 0xEDB88320 < 4294967296 :=
      Nat.xor_lt_two_pow (n := 32) (by omega) (by norm_num)
    have hge : 2 ^ 31 ≤ (c / 2) ^^^ 0xEDB88320 := by
      apply Nat.testBit_implies_ge
      rw [Nat.testBit_xor, Nat.testBit_lt_two_pow hc2]
      decide
    have h31 : ((c / 2) ^^^ 0xEDB88320) >>> 31 = 1 := by
      rw [Nat.shiftRight_eq_div_pow]
      omega
    unfold crcStepInv
    rw [hstep, h31, Nat.one_mul, Nat.xor_assoc, Nat.xor_self, Nat.xor_zero]
    omega

theorem crcStep_injOn {c c' : Nat} (hc : c < 4294967296) (hc' : c' < 4294967296)
    (h : crcStep c = crcStep c') : c = c' := by
  rw [← crcStepInv_crcStep hc, ← crcStepInv_crcStep hc', h]

theorem crcStep_iter_injOn (n : Nat) {c c' : Nat} (hc : c < 4294967296)
    (hc' : c' < 4294967296) (h : crcStep^[n] c = crcStep^[n] c') : c = c' := by
  induction n generalizing c c' with
  | zero => simpa using h
  | succ n ih =>
    rw [Function.iterate_succ_apply, Function.iterate_succ_apply] at h
    exact crcStep_injOn hc hc' (ih (crcStep_lt hc) (crcStep_lt hc') h)

theorem crcByte_lt {c b : Nat} (hc : c < 4294967296) (hb : b < 4294967296) :
    crcByte c b < 4294967296 := by
  unfold crcByte
  exact crcStep_iter_lt 8 (Nat.xor_lt_two_pow (n := 32) hc hb)

theorem crcByte_state_ne {c c' b : Nat} (hc : c < 4294967296) (hc' : c' < 4294967296)
    (hb : b < 4294967296) (hne : c ≠ c') : crcByte c b ≠ crcByte c' b := by
  intro h
  apply hne
  have := crcStep_iter_injOn 8 (Nat.xor_lt_two_pow (n := 32) hc hb)
    (Nat.xor_lt_two_pow (n := 32) hc' hb) h
  exact xor_right_cancel this

theorem crcByte_byte_ne {c b b' : Nat} (hc : c < 4294967296) (hb : b < 4294967296)
    (hb' : b' < 4294967296) (hne : b ≠ b') : crcByte c b ≠ crcByte c b' := by
  intro h
  apply hne
  have := crcStep_iter_injOn 8 (Nat.xor_lt_two_pow (n := 32) hc hb)
    (Nat.xor_lt_two_pow (n := 32) hc hb') h
  exact xor_left_cancel this

theorem crcFold_lt {l : List Nat} (hl : ∀ x ∈ l, x < 256) {c : Nat}
    (hc : c < 4294967296) : l.foldl crcByte c < 4294967296 := by
  induction l generalizing c with
  | nil => simpa using hc
  | cons b t ih =>
    rw [List.foldl_cons]
    exact ih (fun x hx => hl x (List.mem_cons_of_mem _ hx))
      (crcByte_lt hc (by have := hl b (List.mem_cons_self _ _); omega))

theorem crc32_lt (l : List Nat) (hl : ∀ x ∈ l, x < 256) : crc32 l < 4294967296 := by
  unfold crc32
  exact Nat.xor_lt_two_pow (n := 32) (crcFold_lt hl (by norm_num)) (by norm_num)

theorem crcFold_state_ne {l : List Nat} (hl : ∀ x ∈ l, x < 256) :
    ∀ {c c' : Nat}, c < 4294967296 → c' < 4294967296 → c ≠ c' →
      l.foldl crcByte c ≠ l.foldl crcByte c' := by
  induction l with
  | nil => intro c c' _ _ hne; simpa using hne
  | cons b t ih =>
    intro c c' hc hc' hne
    rw [List.foldl_cons, List.foldl_cons]
    have hb : b < 4294967296 := by have := hl b (List.mem_cons_self _ _); omega
    exact ih (fun x hx => hl x (List.mem_cons_of_mem _ hx))
      (crcByte_lt hc hb) (crcByte_lt hc' hb) (crcByte_state_ne hc hc' hb hne)

/-- Flipping one bit of one byte changes the CRC fold from any 32-bit
starting state: the payload-level single-bit-error detection of CRC-32. -/
theorem crcFold_set_ne (l : List Nat) :
    ∀ (j : Nat) {c : Nat} (k : Nat), (∀ x ∈ l, x < 256) →
      c < 4294967296 → j < l.length → k < 8 →
      List.foldl crcByte c (l.set j (l.getD j 0 ^^^ (1 <<< k))) ≠ List.foldl crcByte c l := by
  induction l with
  | nil => intro j c k _ _ hj _; simp at hj
  | cons b t ih =>
    intro j c k hl hc hj hk
    have hb : b < 256 := hl b (List.mem_cons_self _ _)
    have ht : ∀ x ∈ t, x < 256 := fun x hx => hl x (List.mem_cons_of_mem _ hx)
    have hkpow : (1 <<< k) < 256 := by
      rw [Nat.one_shiftLeft]
      calc 2 ^ k ≤ 2 ^ 7 := Nat.pow_le_pow_right (by norm_num) (by omega)
        _ < 256 := by norm_num
    match j with
    | 0 =>
      have hbne : b ^^^ (1 <<< k) ≠ b :=
        xor_ne_self (by rw [Nat.one_shiftLeft]; exact (Nat.two_pow_pos k).ne')
      have hb' : b ^^^ (1 <<< k) < 256 :=
        Nat.xor_lt_two_pow (n := 8) (by omega) (by omega)
      simp only [List.set_cons_zero, List.getD_cons_zero, List.foldl_cons]
      exact crcFold_state_ne ht (crcByte_lt hc (by omega)) (crcByte_lt hc (by omega))
        (crcByte_byte_ne hc (by omega) (by omega) hbne)
    | j + 1 =>
      simp only [List.set_cons_succ, List.getD_cons_succ, List.foldl_cons]
      exact ih j k ht (crcByte_lt hc (by omega)) (by simpa using hj) hk

/-! ## Helper lemmas: frame-level decoding -/

/-- `decode` on an explicit 12-byte header followed by a payload, with
every header field spelled out.  The too-short check never fires. -/
theorem decode_frame (v0 v1 t0 t1 l0 l1 l2 l3 d0 d1 d2 d3 : Nat) (p : List Nat) :
    decode (v0 :: v1 :: t0 :: t1 :: l0 :: l1 :: l2 :: l3 ::
        d0 :: d1 :: d2 :: d3 :: p) =
      if v0 + 256 * v1 ≠ 1 then .error "Unsupported protocol version"
      else if 12 + p.length < 12 + (l0 + 256 * l1 + 65536 * l2 + 16777216 * l3) then
        .error "Invalid IEv1 data: payload truncated"
      else if crc32 (p.take (l0 + 256 * l1 + 65536 * l2 + 16777216 * l3)) ≠
          d0 + 256 * d1 + 65536 * d2 + 16777216 * d3 then
        .error "IEv1 checksum mismatch"
      else decodePayload (t0 + 256 * t1)
        (p.take (l0 + 256 * l1 + 65536 * l2 + 16777216 * l3)) := by
  have hlen : (v0 :: v1 :: t0 :: t1 :: l0 :: l1 :: l2 :: l3 ::
      d0 :: d1 :: d2 :: d3 :: p).length = 12 + p.length := by
    simp [List.length_cons]; omega
  have hr16a : readU16 (v0 :: v1 :: t0 :: t1 :: l0 :: l1 :: l2 :: l3 ::
      d0 :: d1 :: d2 :: d3 :: p) 0 = v0 + 256 * v1 := rfl
  have hr16b : readU16 (v0 :: v1 :: t0 :: t1 :: l0 :: l1 :: l2 :: l3 ::
      d0 :: d1 :: d2 :: d3 :: p) 2 = t0 + 256 * t1 := rfl
  have hr32l : readU32 (v0 :: v1 :: t0 :: t1 :: l0 :: l1 :: l2 :: l3 ::
      d0 :: d1 :: d2 :: d3 :: p) 4 = l0 + 256 * l1 + 65536 * l2 + 16777216 * l3 := rfl
  have hr32d : readU32 (v0 :: v1 :: t0 :: t1 :: l0 :: l1 :: l2 :: l3 ::
      d0 :: d1 :: d2 :: d3 :: p) 8 = d0 + 256 * d1 + 65536 * d2 + 16777216 * d3 := rfl
  have hdrop : (v0 :: v1 :: t0 :: t1 :: l0 :: l1 :: l2 :: l3 ::
      d0 :: d1 :: d2 :: d3 :: p).drop 12 = p := rfl
  unfold decode
  rw [hr16a, hr16b, hr32l, hr32d, hdrop, hlen, if_neg (by omega)]

/-- An op-type outside `{1, 2, 3, 4}` always fails to decode. -/
theorem decodePayload_unknown {t : Nat} (p : List Nat)
    (h1 : t ≠ 1) (h2 : t ≠ 2) (h3 : t ≠ 3) (h4 : t ≠ 4) :
    decodePayload t p = .error "Unknown operation type" := by
  unfold decodePayload
  rw [if_neg h1, if_neg h2, if_neg h3, if_neg h4]

/-- A resize payload shorter than eight bytes always fails to decode. -/
theorem decodePayload_resize_short (p : List Nat) (h : p.length < 8) :
    decodePayload 3 p = .error "Invalid resize payload" := by
  unfold decodePayload
  rw [if_neg (by omega), if_neg (by omega), if_pos rfl, if_pos h]

/-- No op type accepts an empty payload. -/
theorem decodePayload_nil (t : Nat) : isOk (decodePayload t []) = false := by
  unfold decodePayload
  split_ifs <;> simp_all [isOk, List.length_nil]

/-- Either branch of the checksum test yields a failure when the fallback
itself fails. -/
theorem isOk_ite_error {c : Prop} [Decidable c] {e : String}
    {x : Except String Operation} (hx : isOk x = false) :
    isOk (if c then Except.error e else x) = false := by
  split_ifs with h
  · rfl
  · exact hx

/-! ## Helper lemmas: shape of encoded frames -/

theorem truthy_false_getD {o : Option Nat} (h : truthy o = false) : o.getD 0 = 0 := by
  cases o with
  | none => rfl
  | some n => simpa [truthy] using h

theorem typeTag_cases (op : Operation) :
    op.typeTag = 1 ∨ op.typeTag = 2 ∨ op.typeTag = 3 ∨ op.typeTag = 4 := by
  cases op <;> simp [Operation.typeTag]

/-- Every successfully encoded frame of a valid operation is a 12-byte
header — version `1`, the op tag, the payload length (`1` or `8`, so the
high length bytes are zero), the payload CRC — followed by the payload,
whose bytes are all below 256. -/
theorem encode_ok_shape {op : Operation} {b : List Nat}
    (hv : op.validate = true) (he : encode op = .ok b) :
    ∃ p, b = 1 :: 0 :: op.typeTag :: 0 :: p.length :: 0 :: 0 :: 0 ::
        (u32le (crc32 p) ++ p) ∧
      (∀ x ∈ p, x < 256) ∧
      p.length = (if op.typeTag = 3 then 8 else 1) := by
  cases op with
  | rotate d =>
    by_cases hd : d ≤ 255
    · have hep : encodePayload (.rotate d) = .ok [d] := by
        simp only [encodePayload]; rw [if_pos hd]
      unfold encode at he
      rw [hep] at he
      injection he with hb
      exact ⟨[d], by rw [← hb]; simp [u16le, u32le, Operation.typeTag],
        by simpa using by omega, rfl⟩
    · have hep : encodePayload (.rotate d) = .error "writeUInt8 out of range" := by
        simp only [encodePayload]; rw [if_neg hd]
      unfold encode at he
      rw [hep] at he
      exact absurd he (by simp)
  | flip h v =>
    have hep : encodePayload (.flip h v) =
        .ok [(if h then 1 else 0) ||| (if v then 2 else 0)] := by
      simp only [encodePayload]
    unfold encode at he
    rw [hep] at he
    injection he with hb
    refine ⟨[(if h then 1 else 0) ||| (if v then 2 else 0)],
      by rw [← hb]; simp [u16le, u32le, Operation.typeTag], ?_, rfl⟩
    cases h <;> cases v <;> simp
  | resize w h =>
    have hwh : w.getD 0 ≤ 4000 ∧ h.getD 0 ≤ 4000 := by
      simp only [Operation.validate] at hv
      split_ifs at hv with h1 h2 h3
      constructor
      · rcases Bool.eq_false_or_eq_true (truthy w) with htw | htw
        · have h4 := not_and.mp h2 htw
          omega
        · rw [truthy_false_getD htw]; omega
      · rcases Bool.eq_false_or_eq_true (truthy h) with hth | hth
        · have h4 := not_and.mp h3 hth
          omega
        · rw [truthy_false_getD hth]; omega
    have hep : encodePayload (.resize w h) =
        .ok (u32le (w.getD 0) ++ u32le (h.getD 0)) := by
      simp only [encodePayload]
      rw [if_pos ⟨by omega, by omega⟩]
    unfold encode at he
    rw [hep] at he
    injection he with hb
    refine ⟨u32le (w.getD 0) ++ u32le (h.getD 0),
      by rw [← hb]; simp [u16le, u32le, Operation.typeTag], ?_, rfl⟩
    intro x hx
    simp only [u32le, List.mem_append, List.mem_cons, List.not_mem_nil, or_false] at hx
    rcases hx with hx | hx <;> rcases hx with h' | h' | h' | h' <;> subst h' <;> omega
  | compress q =>
    have hq : q ≤ 255 := by
      simp only [Operation.validate] at hv
      simp at hv
      omega
    have hep : encodePayload (.compress q) = .ok [q] := by
      simp only [encodePayload]; rw [if_pos hq]
    unfold encode at he
    rw [hep] at he
    injection he with hb
    exact ⟨[q], by rw [← hb]; simp [u16le, u32le, Operation.typeTag],
      by simpa using by omega, rfl⟩

/-! ## Helper lemmas: reads from extended buffers -/

theorem getD_append_lt (l1 l2 : List Nat) (n : Nat) (h : n < l1.length) :
    (l1 ++ l2).getD n 0 = l1.getD n 0 := by
  simp [List.getD_eq_getElem?_getD, List.getElem?_append_left h]

theorem decide_range_flip (a lo hi : Nat) :
    (!decide (a < lo) && !decide (hi < a)) = (decide (lo ≤ a) && decide (a ≤ hi)) := by
  by_cases h1 : a < lo <;> by_cases h2 : hi < a <;>
    simp [h1, h2, decide_eq_true_eq] <;> omega

/-! ## Claims -/

/-- C1: the claim states that `decode (encode op) = op` for every operation
satisfying §3's constraints.  The code cannot honor it: `RotateOp(270)` is
valid (`validate()` is true, and the protocol's own header comment lists
`270` as a 1-byte payload value), yet `encode` writes the degree value with
`Buffer.writeUInt8`, which throws `ERR_OUT_OF_RANGE` for `270 > 255`, so
the round trip fails on this valid operation. -/
theorem c1_rotate270_valid_but_encode_fails :
    (Operation.rotate 270).validate = true ∧
      encode (.rotate 270) = .error "writeUInt8 out of range" := by
  exact ⟨by decide, rfl⟩

/-- C3 (amended): `IEv1Protocol.decode` performs no `validate()` call.  A
buffer that passes the four header checks (length, version, payload fit,
CRC) decodes to whatever operation `decodePayload` reconstructs, and is
returned as-is even when its parameters violate the §3 range constraints —
there is no validation error.  (Range validation happens only later, in
`RevisionService.applyOp`.) -/
theorem c3_decode_returns_unvalidated (data : List Nat) (op : Operation)
    (h12 : 12 ≤ data.length)
    (hver : readU16 data 0 = 1)
    (hfit : 12 + readU32 data 4 ≤ data.length)
    (hcrc : crc32 ((data.drop 12).take (readU32 data 4)) = readU32 data 8)
    (hop : decodePayload (readU16 data 2) ((data.drop 12).take (readU32 data 4)) = .ok op)
    (hbad : op.validate = false) :
    decode data = .ok op := by
  unfold decode
  rw [if_neg (by omega), if_neg (by simp [hver]), if_neg (by omega),
    if_neg (by simp [hcrc]), hop]

/-- C3 witness: a checksummed COMPRESS frame with quality byte `5`
(below the §3 minimum of 10) decodes successfully to `CompressOp(5)`. -/
theorem c3_witness :
    decode [1, 0, 4, 0, 1, 0, 0, 0, 2, 27, 104, 162, 5] = .ok (.compress 5) :=
  c3_decode_returns_unvalidated _ _ (by decide) rfl (by decide) (by decide) rfl rfl

/-- C3 counterexample to the claim as stated: a well-formed frame whose
ROTATE payload byte is `45` decodes to `RotateOp(45)` — `decode` returns
the out-of-range operation instead of failing with a validation error. -/
theorem c3_counterexample_rotate45_decodes :
    decode [1, 0, 1, 0, 1, 0, 0, 0, 248, 179, 221, 151, 45] = .ok (.rotate 45) ∧
      (Operation.rotate 45).validate = false := by
  exact ⟨rfl, by decide⟩

/-- C7 (amended): `validate()` matches the §3 constraints with "present"
read as JavaScript truthiness: a `RESIZE` dimension equal to `0` is
treated as absent (like `undefined`), not as an out-of-range value.
Rotate, flip and compress match the constraints exactly as stated. -/
theorem c7_validate_eq_truthy_constraints (op : Operation) :
    op.validate = sectionThreeValidTruthy op := by
  cases op with
  | rotate d => rfl
  | flip h v => rfl
  | compress q => rfl
  | resize w h =>
    simp only [Operation.validate, sectionThreeValidTruthy]
    rcases Bool.eq_false_or_eq_true (truthy w) with htw | htw <;>
      rcases Bool.eq_false_or_eq_true (truthy h) with hth | hth <;>
        simp [htw, hth] <;> rw [decide_range_flip] <;> (try rw [decide_range_flip])

/-- C7 counterexample to the claim as stated: `ResizeOp(0, 600)` has a
present width of `0`, outside `[200, 4000]`, so the §3 constraints as
written are violated — yet `validate()` returns true, because the
truthiness test `!width` treats `0` as absent. -/
theorem c7_counterexample_zero_width :
    (Operation.resize (some 0) (some 600)).validate = true ∧
      sectionThreeValid (.resize (some 0) (some 600)) = false := by
  exact ⟨by decide, by decide⟩

/-- C10: `decode` reads only the 12-byte header and the first
`payload_len` payload bytes, and both length checks are lower bounds, so
appending arbitrary trailing bytes to a decodable buffer neither fails
nor changes the decoded operation. -/
theorem c10_trailing_bytes_ignored (b t : List Nat) (op : Operation)
    (h : decode b = .ok op) : decode (b ++ t) = .ok op := by
  unfold decode at h
  split_ifs at h with h1 h2 h3 h4
  have hlen : 12 ≤ b.length := by omega
  have hr0 : readU16 (b ++ t) 0 = readU16 b 0 := by
    unfold readU16
    rw [getD_append_lt _ _ _ (by omega), getD_append_lt _ _ _ (by omega)]
  have hr2 : readU16 (b ++ t) 2 = readU16 b 2 := by
    unfold readU16
    rw [getD_append_lt _ _ _ (by omega), getD_append_lt _ _ _ (by omega)]
  have hr4 : readU32 (b ++ t) 4 = readU32 b 4 := by
    unfold readU32
    rw [getD_append_lt _ _ _ (by omega), getD_append_lt _ _ _ (by omega),
      getD_append_lt _ _ _ (by omega), getD_append_lt _ _ _ (by omega)]
  have hr8 : readU32 (b ++ t) 8 = readU32 b 8 := by
    unfold readU32
    rw [getD_append_lt _ _ _ (by omega), getD_append_lt _ _ _ (by omega),
      getD_append_lt _ _ _ (by omega), getD_append_lt _ _ _ (by omega)]
  have hdrop : (b ++ t).drop 12 = b.drop 12 ++ t := by
    rw [List.drop_append_eq_append_drop]
    congr 1
    rw [show (12 - b.length) = 0 from by omega]
    rfl
  have htake : (b.drop 12 ++ t).take (readU32 b 4) = (b.drop 12).take (readU32 b 4) := by
    rw [List.take_append_eq_append_take]
    rw [show readU32 b 4 - (b.drop 12).length = 0 from by simp [List.length_drop]; omega]
    simp
  unfold decode
  rw [if_neg (by simp only [List.length_append]; omega), hr0, if_neg h2, hr4,
    if_neg (by simp only [List.length_append]; omega), hdrop, htake,
    hr8, if_neg h4, hr2]
  exact h

/-- C10 witness: appending a junk byte to an encoded FLIP frame leaves the
decoded operation unchanged. -/
theorem c10_witness :
    decode ([1, 0, 2, 0, 1, 0, 0, 0, 27, 223, 5, 165, 1] ++ [171]) =
      .ok (.flip true false) :=
  c10_trailing_bytes_ignored _ _ _ rfl

/-! ## Helper lemmas: the revision pipeline -/

theorem invalidateThumbnail_cacheUp {w : World} (i : Nat) (h : w.cacheUp = true) :
    invalidateThumbnail w i =
      .ok { w with thumbCache := w.thumbCache.filter (fun e => e.1 ≠ i) } := by
  unfold invalidateThumbnail
  rw [if_pos h]

theorem invalidateThumbnail_cacheDown {w : World} (i : Nat) (h : w.cacheUp = false) :
    invalidateThumbnail w i = .error "Redis connection failed after 10 retries" := by
  unfold invalidateThumbnail
  rw [if_neg (by simp [h])]

theorem invalidateThumbnail_ok_inv {w w' : World} {i : Nat}
    (h : invalidateThumbnail w i = .ok w') :
    w' = { w with thumbCache := w.thumbCache.filter (fun e => e.1 ≠ i) } := by
  unfold invalidateThumbnail at h
  split_ifs at h
  injection h with h
  exact h.symm

/-- The success path of `applyOp`, spelled out: when the operation
validates, the image row exists, the source blob (the parent's result
blob, or the raw original when there is no revision yet) is present and
the cache backend is reachable, `applyOp` uploads the codec output under
the deterministic results path with the image row's mime type, appends the
revision row, and drops the thumbnail cache entry. -/
theorem applyOp_ok_eq (codec : Operation → List Nat → List Nat) (w : World)
    (imageId rid now : Nat) (op : Operation) (image : ImageRecord) (src : List Nat)
    (hv : op.validate = true)
    (himg : getImage w imageId = some image)
    (hsrc : (match getLatestRevision w.revisions imageId with
       | some p => (w.resultBlobs.lookup p.storage_path).map (·.bytes)
       | none => w.rawBlobs.lookup image.original_path) = some src)
    (hcache : w.cacheUp = true) :
    applyOp codec w imageId rid now op =
      .ok ({ w with
          resultBlobs := (uploadResultPath imageId rid image.mime_type,
            ⟨codec op src, image.mime_type⟩) :: w.resultBlobs,
          revisions := w.revisions ++
            [⟨rid, imageId,
              (match getLatestRevision w.revisions imageId with
               | some p => if p.id = 0 then none else some p.id
               | none => none), op.typeTag, op,
              uploadResultPath imageId rid image.mime_type, now⟩],
          thumbCache := w.thumbCache.filter (fun e => e.1 ≠ imageId) },
        ⟨rid, imageId,
          (match getLatestRevision w.revisions imageId with
           | some p => if p.id = 0 then none else some p.id
           | none => none), op.typeTag, op,
          uploadResultPath imageId rid image.mime_type, now⟩) := by
  simp only [applyOp, hv, himg, hsrc]
  rw [if_neg (by simp)]
  unfold invalidateThumbnail
  rw [if_pos hcache]

/-- Inversion of a successful `applyOp` run: the image row existed, the
cache invalidation went through, and the returned pair is exactly the
constructed revision and updated world. -/
theorem applyOp_ok_inv {codec : Operation → List Nat → List Nat} {w : World}
    {imageId rid now : Nat} {op : Operation} {w2 : World} {rev : RevisionRecord}
    (h : applyOp codec w imageId rid now op = .ok (w2, rev)) :
    ∃ image src,
      getImage w imageId = some image ∧
      rev = ⟨rid, imageId,
        (match getLatestRevision w.revisions imageId with
         | some p => if p.id = 0 then none else some p.id
         | none => none), op.typeTag, op,
        uploadResultPath imageId rid image.mime_type, now⟩ ∧
      w2 = { w with
          resultBlobs := (uploadResultPath imageId rid image.mime_type,
            ⟨codec op src, image.mime_type⟩) :: w.resultBlobs,
          revisions := w.revisions ++ [rev],
          thumbCache := w.thumbCache.filter (fun e => e.1 ≠ imageId) } := by
  simp only [applyOp] at h
  split_ifs at h
  split at h
  · exact absurd h (by simp)
  · rename_i image himg
    split at h
    · exact absurd h (by simp)
    · rename_i src hs
      split at h
      · exact absurd h (by simp)
      · rename_i w2m hinv
        simp only [Except.ok.injEq, Prod.mk.injEq] at h
        obtain ⟨hw2, hrev⟩ := h
        refine ⟨image, src, himg, hrev.symm, ?_⟩
        rw [← hw2, invalidateThumbnail_ok_inv hinv, ← hrev]

/-- C4 (amended): a successful `undo` returns the parent `p` of the latest
revision `cur`, but writes nothing to the revisions table — there is no
tombstone.  Immediately afterwards `get_latest_revision` still returns
`cur` (not `p`), and a subsequent `apply_op` records `cur.id` (not `p.id`)
as the new revision's parent.  (`undo` succeeds only when its trailing
cache invalidation does, hence the hypothesis producing the returned
world `w2c`.) -/
theorem c4_undo_returns_parent_but_latest_unchanged
    (codec : Operation → List Nat → List Nat) (w w2c : World)
    (imageId rid now : Nat) (op : Operation) (cur par : RevisionRecord) (pid : Nat)
    (w2 : World) (rev : RevisionRecord)
    (hlatest : getLatestRevision w.revisions imageId = some cur)
    (hpid : cur.parent_id = some pid)
    (hpar : getRevision w.revisions pid = some par)
    (hcur : cur.id ≠ 0)
    (hinv : invalidateThumbnail w imageId = .ok w2c)
    (happly : applyOp codec w2c imageId rid now op = .ok (w2, rev)) :
    undo w imageId = .ok (w2c, par) ∧
    getLatestRevision w2c.revisions imageId = some cur ∧
    rev.parent_id = some cur.id := by
  have hrevs : w2c.revisions = w.revisions := by
    rw [invalidateThumbnail_ok_inv hinv]
  refine ⟨?_, ?_, ?_⟩
  · simp only [undo, hlatest, hpid, hpar, hinv]
  · rw [hrevs]; exact hlatest
  · obtain ⟨image, src, himg, hrev, hw2⟩ := applyOp_ok_inv happly
    rw [hrev]
    simp [hrevs, hlatest, hcur]

/-- C4 witness: on the concrete chain `rev1 → rev2`, undo returns `rev1`,
the latest revision is still `rev2`, and the next `apply_op` hangs its
revision under `rev2`. -/
theorem c4_witness :
    undo worldChain 7 = .ok (worldChain, rev1) ∧
    getLatestRevision worldChain.revisions 7 = some rev2 ∧
    (⟨3, 7, some 2, 1, .rotate 180, "7_3.jpg", 5⟩ : RevisionRecord).parent_id =
      some rev2.id :=
  c4_undo_returns_parent_but_latest_unchanged idCodec worldChain worldChain 7 3 5
    (.rotate 180) rev2 rev1 1 _ _ rfl rfl rfl (by decide) rfl rfl

/-- C4 counterexample to the claim as stated: after `undo` returns `rev1`,
`get_latest_revision` still returns `rev2` — the undone revision is not
excluded, because nothing is tombstoned. -/
theorem c4_counterexample_latest_is_not_parent :
    undo worldChain 7 = .ok (worldChain, rev1) ∧
    getLatestRevision worldChain.revisions 7 = some rev2 ∧
    rev2 ≠ rev1 := by
  exact ⟨rfl, rfl, by decide⟩

/-- C5 (amended): on every successful `apply_op` the content type recorded
on the result blob is the source image row's `mime_type` — for all four
operations, including COMPRESS.  (The code passes `image.mime_type` to
`CloudStorage.uploadResult` unconditionally; no operation forces
`image/jpeg`.) -/
theorem c5_output_mime_always_source_mime
    (codec : Operation → List Nat → List Nat) (w : World)
    (imageId rid now : Nat) (op : Operation) (image : ImageRecord)
    (w2 : World) (rev : RevisionRecord)
    (himg : getImage w imageId = some image)
    (happly : applyOp codec w imageId rid now op = .ok (w2, rev)) :
    (w2.resultBlobs.lookup rev.storage_path).map (·.contentType) =
      some image.mime_type := by
  obtain ⟨image', src, himg', hrev, hw2⟩ := applyOp_ok_inv happly
  rw [himg] at himg'
  injection himg' with himg'
  subst himg'
  rw [hw2, hrev]
  simp [List.lookup_cons_self]

/-- C5 witness: compressing a PNG image records `image/png` — the source
mime — on the result blob. -/
theorem c5_witness :
    (((⟨[imgPng], [⟨5, 9, none, 4, .compress 50, "9_5.png", 10⟩],
        [("1/9.png", [7, 7])], [("9_5.png", ⟨[7, 7], "image/png"⟩)], [], true⟩ :
          World).resultBlobs.lookup
        (⟨5, 9, none, 4, Operation.compress 50, "9_5.png", 10⟩ :
          RevisionRecord).storage_path).map (·.contentType)) =
      some imgPng.mime_type :=
  c5_output_mime_always_source_mime idCodec worldNoRev 9 5 10 (.compress 50)
    imgPng _ _ rfl rfl

/-- C5 counterexample to the claim as stated: a COMPRESS on a PNG source
stores the blob with content type `image/png`, not `image/jpeg`. -/
theorem c5_counterexample_compress_png_stays_png :
    resultStoredBlob (applyOp idCodec worldNoRev 9 5 10 (.compress 50)) =
      some (some ⟨[7, 7], "image/png"⟩) ∧
    "image/png" ≠ "image/jpeg" := by
  exact ⟨rfl, by decide⟩

/-- C6: on an existing image, `apply_op` reads its source from the results
bucket at `parent.storage_path` when a latest revision `parent` exists
(recording `parent.id` as the new revision's `parent_id`), and from the
raw bucket at `image.original_path` when none exists (recording a null
`parent_id`); the committed result blob is the codec output of exactly
those source bytes.  Two side conditions: a UUID `parent.id` is never the
falsy value 0 (which `parent?.id || null` would collapse to null), and the
cache backend is reachable — with it down the run aborts on the trailing
cache invalidation before returning, for a reason unrelated to source
selection. -/
theorem c6_source_selection_and_parent
    (codec : Operation → List Nat → List Nat) (w : World)
    (imageId rid now : Nat) (op : Operation) (image : ImageRecord) (src : List Nat)
    (hv : op.validate = true)
    (himg : getImage w imageId = some image)
    (hsrc : (match getLatestRevision w.revisions imageId with
       | some p => (w.resultBlobs.lookup p.storage_path).map (·.bytes)
       | none => w.rawBlobs.lookup image.original_path) = some src)
    (hpid : ∀ parent, getLatestRevision w.revisions imageId = some parent →
      parent.id ≠ 0)
    (hcache : w.cacheUp = true) :
    resultParentId (applyOp codec w imageId rid now op) =
      some ((getLatestRevision w.revisions imageId).map (·.id)) ∧
    resultStoredBlob (applyOp codec w imageId rid now op) =
      some (some ⟨codec op src, image.mime_type⟩) ∧
    isOk (applyOp codec w imageId rid now op) = true := by
  rw [applyOp_ok_eq codec w imageId rid now op image src hv himg hsrc hcache]
  refine ⟨?_, ?_, rfl⟩
  · simp only [resultParentId, Except.toOption, Option.map_some']
    rcases hpar : getLatestRevision w.revisions imageId with _ | parent
    · simp
    · simp [if_neg (hpid parent hpar)]
  · simp only [resultStoredBlob, Except.toOption, Option.map_some']
    simp [List.lookup_cons_self]

/-- C6 witness: both branches on concrete worlds — with a parent revision
(source = its result blob, `parent_id = some 2`) and without one
(source = the raw original, `parent_id = none`). -/
theorem c6_witness :
    (resultParentId (applyOp idCodec worldWithParent 9 5 10 (.rotate 90)) =
        some ((getLatestRevision worldWithParent.revisions 9).map (·.id)) ∧
      resultStoredBlob (applyOp idCodec worldWithParent 9 5 10 (.rotate 90)) =
        some (some ⟨idCodec (.rotate 90) [1, 2, 3], imgPng.mime_type⟩) ∧
      isOk (applyOp idCodec worldWithParent 9 5 10 (.rotate 90)) = true) ∧
    (resultParentId (applyOp idCodec worldNoRev 9 5 10 (.rotate 90)) =
        some ((getLatestRevision worldNoRev.revisions 9).map (·.id)) ∧
      resultStoredBlob (applyOp idCodec worldNoRev 9 5 10 (.rotate 90)) =
        some (some ⟨idCodec (.rotate 90) [7, 7], imgPng.mime_type⟩) ∧
      isOk (applyOp idCodec worldNoRev 9 5 10 (.rotate 90)) = true) := by
  constructor
  · exact c6_source_selection_and_parent idCodec worldWithParent 9 5 10 (.rotate 90)
      imgPng [1, 2, 3] (by decide) rfl rfl
      (fun p hp => by
        rw [show getLatestRevision worldWithParent.revisions 9 = some revOrig from rfl]
          at hp
        injection hp with h
        rw [← h]
        decide)
      rfl
  · exact c6_source_selection_and_parent idCodec worldNoRev 9 5 10 (.rotate 90)
      imgPng [7, 7] (by decide) rfl rfl
      (fun p hp => by
        rw [show getLatestRevision worldNoRev.revisions 9 = none from rfl] at hp
        exact Option.noConfusion hp)
      rfl

/-- C9 (amended): when every step of `apply_op` up to and including the
revision insert succeeds but the thumbnail-cache invalidation fails, the
cache error is not swallowed: `RedisClient.invalidateThumbnail` is an
uncaught `await client.del(..)` inside the `withImageLock` callback, so
the error propagates, the transaction rolls back — the revision row is
not committed — and `apply_op` fails with the cache error. -/
theorem c9_cache_failure_rolls_back
    (codec : Operation → List Nat → List Nat) (w : World)
    (imageId rid now : Nat) (op : Operation) (image : ImageRecord) (src : List Nat)
    (hv : op.validate = true)
    (himg : getImage w imageId = some image)
    (hsrc : (match getLatestRevision w.revisions imageId with
       | some p => (w.resultBlobs.lookup p.storage_path).map (·.bytes)
       | none => w.rawBlobs.lookup image.original_path) = some src)
    (hcache : w.cacheUp = false) :
    applyOp codec w imageId rid now op =
      .error "Redis connection failed after 10 retries" := by
  simp only [applyOp, hv, himg, hsrc]
  rw [if_neg (by simp)]
  unfold invalidateThumbnail
  rw [if_neg (by simp [hcache])]

/-- C9 counterexample to the claim as stated: on a world where the
operation validates, the image row exists and the source blob is in place
— every step up to the insert would succeed — but the cache backend is
down, `apply_op` does not succeed: it fails with the propagated cache
error, and no revision row is committed. -/
theorem c9_counterexample_cache_down_aborts :
    (Operation.rotate 90).validate = true ∧
    getImage worldCacheDown 9 = some imgPng ∧
    worldCacheDown.rawBlobs.lookup imgPng.original_path = some [7, 7] ∧
    applyOp idCodec worldCacheDown 9 5 10 (.rotate 90) =
      .error "Redis connection failed after 10 retries" := by
  exact ⟨by decide, rfl, rfl, rfl⟩

/-- C9 witness: with the cache down, a compress on the concrete world is
rolled back with the cache error. -/
theorem c9_witness :
    applyOp idCodec worldCacheDown 9 6 11 (.compress 50) =
      .error "Redis connection failed after 10 retries" :=
  c9_cache_failure_rolls_back idCodec worldCacheDown 9 6 11 (.compress 50) imgPng
    [7, 7] (by decide) rfl rfl rfl

/-! ## Helper lemmas: bit-level CRC-32 equivalence -/

theorem xor_small_shiftRight (a t : Nat) (ht : t < 2) : (a ^^^ t) >>> 1 = a >>> 1 := by
  rw [Nat.shiftRight_one, Nat.shiftRight_one, Nat.xor_div_two,
    show t / 2 = 0 from by omega, Nat.xor_zero]

theorem xor_mod_two_eq_xor_lowbit (a b : Nat) : (a ^^^ b % 2) % 2 = (a ^^^ b) % 2 := by
  have h1 := Nat.xor_mod_two_eq_one (a := a) (b := b)
  have h2 := Nat.xor_mod_two_eq_one (a := a) (b := b % 2)
  rw [show b % 2 % 2 = b % 2 from by omega] at h2
  omega

theorem crcStep_xor_byte (c b : Nat) :
    crcStep (c ^^^ b) = crcBitStep c (b % 2) ^^^ (b >>> 1) := by
  unfold crcStep crcBitStep
  rw [show b % 2 % 2 = b % 2 from by omega,
    xor_small_shiftRight c (b % 2) (by omega),
    xor_mod_two_eq_xor_lowbit c b,
    show (c ^^^ b) >>> 1 = c >>> 1 ^^^ b >>> 1 from by
      rw [Nat.shiftRight_one, Nat.shiftRight_one, Nat.shiftRight_one, Nat.xor_div_two]]
  rw [Nat.xor_assoc, Nat.xor_assoc, Nat.xor_comm (b >>> 1)]

theorem crcStep_iter_bits :
    ∀ (n : Nat) (c b : Nat), b < 2 ^ n →
      crcStep^[n] (c ^^^ b) = (bitsLE n b).foldl crcBitStep c := by
  intro n
  induction n with
  | zero =>
    intro c b hb
    rw [show b = 0 from by omega]
    simp [bitsLE]
  | succ n ih =>
    intro c b hb
    rw [Function.iterate_succ_apply, crcStep_xor_byte, Nat.shiftRight_one]
    have h2 : 2 ^ (n + 1) = 2 * 2 ^ n := by rw [Nat.pow_succ]; omega
    rw [ih (crcBitStep c (b % 2)) (b / 2) (by omega)]
    rfl

/-- The byte-at-a-time loop of the source equals the specification's
bit-at-a-time reflected CRC on each byte. -/
theorem crcByte_spec (c b : Nat) (hb : b < 256) :
    crcByte c b = (bitsLE 8 b).foldl crcBitStep c := by
  unfold crcByte
  exact crcStep_iter_bits 8 c b hb

theorem crcFold_eq_spec (l : List Nat) :
    ∀ c : Nat, (∀ x ∈ l, x < 256) →
      l.foldl crcByte c = l.foldl (fun c b => (bitsLE 8 b).foldl crcBitStep c) c := by
  induction l with
  | nil => intro c _; rfl
  | cons b t ih =>
    intro c hl
    rw [List.foldl_cons, List.foldl_cons, crcByte_spec c b (hl b (List.mem_cons_self _ _))]
    exact ih _ (fun x hx => hl x (List.mem_cons_of_mem _ hx))

/-- C8: the checksum the source computes is the standard CRC-32 of the
specification (reflected polynomial `0xEDB88320`, init `0xFFFFFFFF`, final
xor `0xFFFFFFFF`, bits processed least significant first), and `encode`
stores in the header exactly this checksum of the payload only — the
checksum field reads back as the CRC of the bytes after the 12-byte
header, so no header byte is covered. -/
theorem c8_crc32_standard_and_payload_only :
    (∀ data : List Nat, (∀ x ∈ data, x < 256) → crc32 data = crc32Spec data) ∧
    (∀ (op : Operation) (b : List Nat), op.validate = true → encode op = .ok b →
      readU32 b 8 = crc32Spec (b.drop 12)) := by
  constructor
  · intro data h
    unfold crc32 crc32Spec
    rw [crcFold_eq_spec data 0xFFFFFFFF h]
  · intro op b hv he
    obtain ⟨p, hb, hpbytes, _⟩ := encode_ok_shape hv he
    have hdrop : b.drop 12 = p := by rw [hb]; rfl
    have hread : readU32 b 8 = crc32 p % 256 + 256 * (crc32 p / 256 % 256) +
        65536 * (crc32 p / 65536 % 256) + 16777216 * (crc32 p / 16777216 % 256) := by
      rw [hb]; rfl
    rw [hdrop, hread, u32_readback (crc32_lt p hpbytes)]
    unfold crc32 crc32Spec
    rw [crcFold_eq_spec p 0xFFFFFFFF hpbytes]

/-- C8 witness: the CRC agreement on a concrete byte string, and the
stored checksum of a concrete encoded FLIP frame. -/
theorem c8_witness :
    crc32 [1, 2, 3] = crc32Spec [1, 2, 3] ∧
    readU32 [1, 0, 2, 0, 1, 0, 0, 0, 27, 223, 5, 165, 1] 8 =
      crc32Spec ([1, 0, 2, 0, 1, 0, 0, 0, 27, 223, 5, 165, 1].drop 12) :=
  ⟨c8_crc32_standard_and_payload_only.1 [1, 2, 3] (by decide),
    c8_crc32_standard_and_payload_only.2 (.flip true false)
      [1, 0, 2, 0, 1, 0, 0, 0, 27, 223, 5, 165, 1] (by decide) rfl⟩

/-! ## Helper lemmas: single-bit flips -/

theorem crc32_set_ne (l : List Nat) (j k : Nat) (hl : ∀ x ∈ l, x < 256)
    (hj : j < l.length) (hk : k < 8) :
    crc32 (l.set j (l.getD j 0 ^^^ (1 <<< k))) ≠ crc32 l := by
  unfold crc32
  intro hEq
  exact crcFold_set_ne l j k hl (by norm_num) hj hk (xor_right_cancel hEq)

theorem getD_append_ge (l1 l2 : List Nat) (n : Nat) (h : l1.length ≤ n) :
    (l1 ++ l2).getD n 0 = l2.getD (n - l1.length) 0 := by
  simp [List.getD_eq_getElem?_getD, List.getElem?_append_right h]

theorem isOk_error (e : String) : isOk (Except.error e : Except String Operation) = false := rfl

/-- C2 (amended): flipping any single bit of a valid encoded IEv1 frame
makes `decode` fail, except when the frame encodes a RESIZE operation and
the flipped bit is bit 16 or 17 — the two low bits of the op-type field —
which turn the tag `3` into `2` (FLIP) or `1` (ROTATE), whose payload
demands (at least one byte) the eight-byte resize payload satisfies, so
the frame decodes successfully to a different operation.  Version, length
and checksum-field corruption are caught by the header checks, and payload
corruption by CRC-32 single-bit error detection. -/
theorem c2_bit_flip_detected_except_resize_optype (op : Operation) (b : List Nat) (i : Nat)
    (hv : op.validate = true) (he : encode op = .ok b)
    (hi : i < 8 * b.length)
    (hex : ¬(op.typeTag = 3 ∧ (i = 16 ∨ i = 17))) :
    isOk (decode (flipBit b i)) = false := by
  obtain ⟨p, hb, hpbytes, hplen⟩ := encode_ok_shape hv he
  have hclt : crc32 p < 4294967296 := crc32_lt p hpbytes
  have hblen : b.length = 12 + p.length := by
    rw [hb]
    simp only [List.length_cons, List.length_append, List.length_nil, u32le]
    omega
  have hk : i % 8 < 8 := Nat.mod_lt _ (by omega)
  have hkpow : ∀ k < 8, 1 <<< k < 256 := by decide
  have hL18 : p.length = 1 ∨ p.length = 8 := by
    rcases typeTag_cases op with h | h | h | h <;> rw [h] at hplen <;>
      simp at hplen <;> omega
  have hregion : i / 8 = 0 ∨ i / 8 = 1 ∨ i / 8 = 2 ∨ i / 8 = 3 ∨ i / 8 = 4 ∨
      i / 8 = 5 ∨ i / 8 = 6 ∨ i / 8 = 7 ∨ i / 8 = 8 ∨ i / 8 = 9 ∨ i / 8 = 10 ∨
      i / 8 = 11 ∨ (12 ≤ i / 8 ∧ i / 8 - 12 < p.length) := by omega
  rcases hregion with h | h | h | h | h | h | h | h | h | h | h | h | ⟨h12, hlast⟩
  -- j = 0: low version byte
  · have hflip : flipBit b i = (1 ^^^ 1 <<< (i % 8)) :: 0 :: op.typeTag :: 0 ::
        p.length :: 0 :: 0 :: 0 :: crc32 p % 256 :: crc32 p / 256 % 256 ::
        crc32 p / 65536 % 256 :: crc32 p / 16777216 % 256 :: p := by
      unfold flipBit; rw [h, hb]; rfl
    rw [hflip, decode_frame]
    have hver : ∀ k < 8, (1 ^^^ 1 <<< k) + 256 * 0 ≠ 1 := by decide
    rw [if_pos (hver _ hk)]
    rfl
  -- j = 1: high version byte
  · have hflip : flipBit b i = 1 :: (0 ^^^ 1 <<< (i % 8)) :: op.typeTag :: 0 ::
        p.length :: 0 :: 0 :: 0 :: crc32 p % 256 :: crc32 p / 256 % 256 ::
        crc32 p / 65536 % 256 :: crc32 p / 16777216 % 256 :: p := by
      unfold flipBit; rw [h, hb]; rfl
    rw [hflip, decode_frame]
    rw [if_pos (by
      rw [Nat.zero_xor, Nat.one_shiftLeft]
      have := Nat.two_pow_pos (i % 8)
      omega)]
    rfl
  -- j = 2: low op-type byte
  · have hflip : flipBit b i = 1 :: 0 :: (op.typeTag ^^^ 1 <<< (i % 8)) :: 0 ::
        p.length :: 0 :: 0 :: 0 :: crc32 p % 256 :: crc32 p / 256 % 256 ::
        crc32 p / 65536 % 256 :: crc32 p / 16777216 % 256 :: p := by
      unfold flipBit; rw [h, hb]; rfl
    rw [hflip, decode_frame]
    rw [show p.length + 256 * 0 + 65536 * 0 + 16777216 * 0 = p.length from by omega,
      u32_readback hclt, List.take_length,
      if_neg (show ¬(1 + 256 * 0 ≠ 1) from by omega),
      if_neg (show ¬(12 + p.length < 12 + p.length) from by omega),
      if_neg (show ¬(crc32 p ≠ crc32 p) from by simp),
      show (op.typeTag ^^^ 1 <<< (i % 8)) + 256 * 0 = op.typeTag ^^^ 1 <<< (i % 8)
        from by omega]
    rcases typeTag_cases op with htag | htag | htag | htag
    · have hp1 : p.length = 1 := by rw [htag] at hplen; simpa using hplen
      rw [htag]
      have hcase : ∀ k < 8, 1 ^^^ 1 <<< k = 3 ∨
          (1 ^^^ 1 <<< k ≠ 1 ∧ 1 ^^^ 1 <<< k ≠ 2 ∧ 1 ^^^ 1 <<< k ≠ 3 ∧
            1 ^^^ 1 <<< k ≠ 4) := by decide
      rcases hcase _ hk with h3 | ⟨h1, h2, h3, h4⟩
      · rw [h3, decodePayload_resize_short p (by omega)]; rfl
      · rw [decodePayload_unknown p h1 h2 h3 h4]; rfl
    · have hp1 : p.length = 1 := by rw [htag] at hplen; simpa using hplen
      rw [htag]
      have hcase : ∀ k < 8, 2 ^^^ 1 <<< k = 3 ∨
          (2 ^^^ 1 <<< k ≠ 1 ∧ 2 ^^^ 1 <<< k ≠ 2 ∧ 2 ^^^ 1 <<< k ≠ 3 ∧
            2 ^^^ 1 <<< k ≠ 4) := by decide
      rcases hcase _ hk with h3 | ⟨h1, h2, h3, h4⟩
      · rw [h3, decodePayload_resize_short p (by omega)]; rfl
      · rw [decodePayload_unknown p h1 h2 h3 h4]; rfl
    · have hk2 : 2 ≤ i % 8 := by
        have hne : ¬(i = 16 ∨ i = 17) := fun hh => hex ⟨htag, hh⟩
        omega
      rw [htag]
      have hcase : ∀ k < 8, 2 ≤ k →
          (3 ^^^ 1 <<< k ≠ 1 ∧ 3 ^^^ 1 <<< k ≠ 2 ∧ 3 ^^^ 1 <<< k ≠ 3 ∧
            3 ^^^ 1 <<< k ≠ 4) := by decide
      obtain ⟨h1, h2, h3, h4⟩ := hcase _ hk hk2
      rw [decodePayload_unknown p h1 h2 h3 h4]; rfl
    · rw [htag]
      have hcase : ∀ k < 8,
          (4 ^^^ 1 <<< k ≠ 1 ∧ 4 ^^^ 1 <<< k ≠ 2 ∧ 4 ^^^ 1 <<< k ≠ 3 ∧
            4 ^^^ 1 <<< k ≠ 4) := by decide
      obtain ⟨h1, h2, h3, h4⟩ := hcase _ hk
      rw [decodePayload_unknown p h1 h2 h3 h4]; rfl
  -- j = 3: high op-type byte
  · have hflip : flipBit b i = 1 :: 0 :: op.typeTag :: (0 ^^^ 1 <<< (i % 8)) ::
        p.length :: 0 :: 0 :: 0 :: crc32 p % 256 :: crc32 p / 256 % 256 ::
        crc32 p / 65536 % 256 :: crc32 p / 16777216 % 256 :: p := by
      unfold flipBit; rw [h, hb]; rfl
    rw [hflip, decode_frame]
    have htag4 : op.typeTag ≤ 4 := by rcases typeTag_cases op with h' | h' | h' | h' <;> omega
    have hpow := Nat.two_pow_pos (i % 8)
    rw [show p.length + 256 * 0 + 65536 * 0 + 16777216 * 0 = p.length from by omega,
      u32_readback hclt, List.take_length,
      if_neg (show ¬(1 + 256 * 0 ≠ 1) from by omega),
      if_neg (show ¬(12 + p.length < 12 + p.length) from by omega),
      if_neg (show ¬(crc32 p ≠ crc32 p) from by simp),
      Nat.zero_xor, Nat.one_shiftLeft]
    rw [decodePayload_unknown p (by omega) (by omega) (by omega) (by omega)]
    rfl
  -- j = 4: low payload-length byte
  · have hflip : flipBit b i = 1 :: 0 :: op.typeTag :: 0 ::
        (p.length ^^^ 1 <<< (i % 8)) :: 0 :: 0 :: 0 :: crc32 p % 256 ::
        crc32 p / 256 % 256 :: crc32 p / 65536 % 256 ::
        crc32 p / 16777216 % 256 :: p := by
      unfold flipBit; rw [h, hb]; rfl
    rw [hflip, decode_frame]
    rw [u32_readback hclt,
      if_neg (show ¬(1 + 256 * 0 ≠ 1) from by omega),
      show (p.length ^^^ 1 <<< (i % 8)) + 256 * 0 + 65536 * 0 + 16777216 * 0 =
        p.length ^^^ 1 <<< (i % 8) from by omega]
    have hcase : ∀ k < 8, (1 ^^^ 1 <<< k = 0 ∨ 1 < 1 ^^^ 1 <<< k) ∧
        (8 ^^^ 1 <<< k = 0 ∨ 8 < 8 ^^^ 1 <<< k) := by decide
    have hflipL : p.length ^^^ 1 <<< (i % 8) = 0 ∨ p.length < p.length ^^^ 1 <<< (i % 8) := by
      rcases hL18 with hL | hL <;> rw [hL] <;>
        [exact (hcase _ hk).1; exact (hcase _ hk).2]
    rcases hflipL with h0 | hgt
    · rw [h0, if_neg (show ¬(12 + p.length < 12 + 0) from by omega), List.take_zero]
      exact isOk_ite_error (decodePayload_nil _)
    · rw [if_pos (by omega)]
      rfl
  -- j = 5, 6, 7: high payload-length bytes
  · have hflip : flipBit b i = 1 :: 0 :: op.typeTag :: 0 :: p.length ::
        (0 ^^^ 1 <<< (i % 8)) :: 0 :: 0 :: crc32 p % 256 :: crc32 p / 256 % 256 ::
        crc32 p / 65536 % 256 :: crc32 p / 16777216 % 256 :: p := by
      unfold flipBit; rw [h, hb]; rfl
    rw [hflip, decode_frame]
    have hpow := Nat.two_pow_pos (i % 8)
    rw [if_neg (show ¬(1 + 256 * 0 ≠ 1) from by omega), Nat.zero_xor, Nat.one_shiftLeft,
      if_pos (by omega)]
    rfl
  · have hflip : flipBit b i = 1 :: 0 :: op.typeTag :: 0 :: p.length ::
        0 :: (0 ^^^ 1 <<< (i % 8)) :: 0 :: crc32 p % 256 :: crc32 p / 256 % 256 ::
        crc32 p / 65536 % 256 :: crc32 p / 16777216 % 256 :: p := by
      unfold flipBit; rw [h, hb]; rfl
    rw [hflip, decode_frame]
    have hpow := Nat.two_pow_pos (i % 8)
    rw [if_neg (show ¬(1 + 256 * 0 ≠ 1) from by omega), Nat.zero_xor, Nat.one_shiftLeft,
      if_pos (by omega)]
    rfl
  · have hflip : flipBit b i = 1 :: 0 :: op.typeTag :: 0 :: p.length ::
        0 :: 0 :: (0 ^^^ 1 <<< (i % 8)) :: crc32 p % 256 :: crc32 p / 256 % 256 ::
        crc32 p / 65536 % 256 :: crc32 p / 16777216 % 256 :: p := by
      unfold flipBit; rw [h, hb]; rfl
    rw [hflip, decode_frame]
    have hpow := Nat.two_pow_pos (i % 8)
    rw [if_neg (show ¬(1 + 256 * 0 ≠ 1) from by omega), Nat.zero_xor, Nat.one_shiftLeft,
      if_pos (by omega)]
    rfl
  -- j = 8..11: stored checksum bytes
  · have hflip : flipBit b i = 1 :: 0 :: op.typeTag :: 0 :: p.length ::
        0 :: 0 :: 0 :: (crc32 p % 256 ^^^ 1 <<< (i % 8)) :: crc32 p / 256 % 256 ::
        crc32 p / 65536 % 256 :: crc32 p / 16777216 % 256 :: p := by
      unfold flipBit; rw [h, hb]; rfl
    rw [hflip, decode_frame]
    have hbne : crc32 p % 256 ^^^ 1 <<< (i % 8) ≠ crc32 p % 256 :=
      xor_ne_self (by rw [Nat.one_shiftLeft]; exact (Nat.two_pow_pos _).ne')
    have hblt : crc32 p % 256 ^^^ 1 <<< (i % 8) < 256 :=
      Nat.xor_lt_two_pow (n := 8) (by omega) (by have := hkpow _ hk; omega)
    rw [show p.length + 256 * 0 + 65536 * 0 + 16777216 * 0 = p.length from by omega,
      List.take_length,
      if_neg (show ¬(1 + 256 * 0 ≠ 1) from by omega),
      if_neg (show ¬(12 + p.length < 12 + p.length) from by omega),
      if_pos (by omega)]
    rfl
  · have hflip : flipBit b i = 1 :: 0 :: op.typeTag :: 0 :: p.length ::
        0 :: 0 :: 0 :: crc32 p % 256 :: (crc32 p / 256 % 256 ^^^ 1 <<< (i % 8)) ::
        crc32 p / 65536 % 256 :: crc32 p / 16777216 % 256 :: p := by
      unfold flipBit; rw [h, hb]; rfl
    rw [hflip, decode_frame]
    have hbne : crc32 p / 256 % 256 ^^^ 1 <<< (i % 8) ≠ crc32 p / 256 % 256 :=
      xor_ne_self (by rw [Nat.one_shiftLeft]; exact (Nat.two_pow_pos _).ne')
    have hblt : crc32 p / 256 % 256 ^^^ 1 <<< (i % 8) < 256 :=
      Nat.xor_lt_two_pow (n := 8) (by omega) (by have := hkpow _ hk; omega)
    rw [show p.length + 256 * 0 + 65536 * 0 + 16777216 * 0 = p.length from by omega,
      List.take_length,
      if_neg (show ¬(1 + 256 * 0 ≠ 1) from by omega),
      if_neg (show ¬(12 + p.length < 12 + p.length) from by omega),
      if_pos (by omega)]
    rfl
  · have hflip : flipBit b i = 1 :: 0 :: op.typeTag :: 0 :: p.length ::
        0 :: 0 :: 0 :: crc32 p % 256 :: crc32 p / 256 % 256 ::
        (crc32 p / 65536 % 256 ^^^ 1 <<< (i % 8)) :: crc32 p / 16777216 % 256 :: p := by
      unfold flipBit; rw [h, hb]; rfl
    rw [hflip, decode_frame]
    have hbne : crc32 p / 65536 % 256 ^^^ 1 <<< (i % 8) ≠ crc32 p / 65536 % 256 :=
      xor_ne_self (by rw [Nat.one_shiftLeft]; exact (Nat.two_pow_pos _).ne')
    have hblt : crc32 p / 65536 % 256 ^^^ 1 <<< (i % 8) < 256 :=
      Nat.xor_lt_two_pow (n := 8) (by omega) (by have := hkpow _ hk; omega)
    rw [show p.length + 256 * 0 + 65536 * 0 + 16777216 * 0 = p.length from by omega,
      List.take_length,
      if_neg (show ¬(1 + 256 * 0 ≠ 1) from by omega),
      if_neg (show ¬(12 + p.length < 12 + p.length) from by omega),
      if_pos (by omega)]
    rfl
  · have hflip : flipBit b i = 1 :: 0 :: op.typeTag :: 0 :: p.length ::
        0 :: 0 :: 0 :: crc32 p % 256 :: crc32 p / 256 % 256 ::
        crc32 p / 65536 % 256 :: (crc32 p / 16777216 % 256 ^^^ 1 <<< (i % 8)) :: p := by
      unfold flipBit; rw [h, hb]; rfl
    rw [hflip, decode_frame]
    have hbne : crc32 p / 16777216 % 256 ^^^ 1 <<< (i % 8) ≠ crc32 p / 16777216 % 256 :=
      xor_ne_self (by rw [Nat.one_shiftLeft]; exact (Nat.two_pow_pos _).ne')
    have hblt : crc32 p / 16777216 % 256 ^^^ 1 <<< (i % 8) < 256 :=
      Nat.xor_lt_two_pow (n := 8) (by omega) (by have := hkpow _ hk; omega)
    rw [show p.length + 256 * 0 + 65536 * 0 + 16777216 * 0 = p.length from by omega,
      List.take_length,
      if_neg (show ¬(1 + 256 * 0 ≠ 1) from by omega),
      if_neg (show ¬(12 + p.length < 12 + p.length) from by omega),
      if_pos (by omega)]
    rfl
  -- j >= 12: payload bytes, CRC single-bit detection
  · have happ : b = ([1, 0, op.typeTag, 0, p.length, 0, 0, 0] ++ u32le (crc32 p)) ++ p := by
      rw [hb, List.append_assoc]
      rfl
    have hdrlen : ([1, 0, op.typeTag, 0, p.length, 0, 0, 0] ++ u32le (crc32 p)).length = 12 := by
      simp [u32le]
    have hflip : flipBit b i = 1 :: 0 :: op.typeTag :: 0 :: p.length ::
        0 :: 0 :: 0 :: crc32 p % 256 :: crc32 p / 256 % 256 ::
        crc32 p / 65536 % 256 :: crc32 p / 16777216 % 256 ::
        p.set (i / 8 - 12) (p.getD (i / 8 - 12) 0 ^^^ 1 <<< (i % 8)) := by
      unfold flipBit
      rw [happ, List.set_append_right _ _ (by rw [hdrlen]; omega),
        getD_append_ge _ _ _ (by rw [hdrlen]; omega), hdrlen]
      simp [u32le]
    rw [hflip, decode_frame]
    rw [show p.length + 256 * 0 + 65536 * 0 + 16777216 * 0 = p.length from by omega,
      u32_readback hclt,
      if_neg (show ¬(1 + 256 * 0 ≠ 1) from by omega),
      if_neg (by rw [List.length_set]; omega),
      List.take_of_length_le (by rw [List.length_set]),
      if_pos (crc32_set_ne p (i / 8 - 12) (i % 8) hpbytes hlast hk)]
    rfl

set_option maxRecDepth 16384 in
/-- C2 counterexample to the claim as stated: the valid operation
`ResizeOp(800, None)` encodes to a 20-byte frame in which flipping bit 16
(the low bit of the op-type field) yields a buffer that `decode` happily
accepts as `FlipOp(false, false)` — the checksum covers only the payload,
so an op-type corruption that lands on another known tag goes undetected. -/
theorem c2_counterexample_resize_optype_flip_decodes :
    (Operation.resize (some 800) none).validate = true ∧
    encode (.resize (some 800) none) =
      .ok [1, 0, 3, 0, 8, 0, 0, 0, 162, 167, 188, 173, 32, 3, 0, 0, 0, 0, 0, 0] ∧
    13 ≤ [1, 0, 3, 0, 8, 0, 0, 0, 162, 167, 188, 173, 32, 3, 0, 0, 0, 0, 0, 0].length ∧
    decode (flipBit [1, 0, 3, 0, 8, 0, 0, 0, 162, 167, 188, 173, 32, 3, 0, 0, 0, 0, 0, 0] 16) =
      .ok (.flip false false) := by
  exact ⟨by decide, rfl, by decide, rfl⟩

/-- C2 witness: flipping bit 0 of an encoded FLIP frame makes `decode`
fail. -/
theorem c2_witness :
    isOk (decode (flipBit [1, 0, 2, 0, 1, 0, 0, 0, 27, 223, 5, 165, 1] 0)) = false :=
  c2_bit_flip_detected_except_resize_optype (.flip true false) _ 0
    (by decide) rfl (by decide) (by decide)
